import Mathlib

/-!
Verification of the atom-engine token scheduler and its server adapters.

Each definition below is a shallow embedding of a function of the Go
sources (the file and lines are named in its doc comment); Go strings are
embedded as `List Char` where the code indexes bytes, Go `interface{}`
values as `GoValue`, Go maps as association lists, and Go functions with
storage or component effects as state-passing functions or functions
returning an explicit effect trace.  Definitions whose Go source is not
among the reviewed files are modelled from the specification and say so in
their doc comment.
-/

/- ## Strings: findInString, contains, isJobCallback (src/core/server/process_manager.go) -/

/-- Embeds the Go slice comparison `s[i:i+len(substr)] == substr` from
`findInString` (process_manager.go lines 438-440): the length-`substr`
slice of `s` starting at byte `i` equals `substr`. -/
def sliceEq (s substr : List Char) (i : Nat) : Bool :=
  (s.drop i).take substr.length == substr

/-- The loop `for i := 0; i <= len(s)-len(substr); i++` of `findInString`
(process_manager.go lines 438-443), with the iteration count passed as
explicit fuel: the caller passes `len s - len substr + 1` iterations, so
the loop index runs from `i` to `len s - len substr` inclusive. -/
def findLoop (s substr : List Char) : Nat → Nat → Int
  | _, 0 => -1
  | i, fuel + 1 => if sliceEq s substr i then (i : Int) else findLoop s substr (i + 1) fuel

/-- Embeds `findInString` (process_manager.go lines 430-444): empty
`substr` gives 0, a too-long `substr` gives -1, otherwise the first index
whose slice matches, or -1. -/
def findInString (s substr : List Char) : Int :=
  if substr.length = 0 then 0
  else if s.length < substr.length then -1
  else findLoop s substr 0 (s.length - substr.length + 1)

/-- Embeds `contains` (process_manager.go lines 423-426):
`len(s) >= len(substr) && findInString(s, substr) != -1`. -/
def containsSubstring (s substr : List Char) : Bool :=
  substr.length ≤ s.length && findInString s substr != -1

/-- Embeds `Core.isJobCallback` (process_manager.go lines 411-419): the
response is non-empty, does not contain `_response`, and contains
`job_completed` or `job_failed`. -/
def isJobCallback (response : List Char) : Bool :=
  decide (0 < response.length) &&
    !containsSubstring response "_response".toList &&
    (containsSubstring response "job_completed".toList ||
      containsSubstring response "job_failed".toList)

/-- Where a jobs-channel response is routed. -/
inductive JobsResponseRoute where
  | handleJobsResponse : JobsResponseRoute
  | ignoredAPIResponse : JobsResponseRoute
deriving DecidableEq

/-- Embeds the routing decision of `Core.processJobsResponses`
(process_manager.go lines 394-404): a response is forwarded to
`handleJobsResponse` exactly when `isJobCallback` holds; otherwise it is
ignored as an API response. -/
def routeJobsResponse (response : List Char) : JobsResponseRoute :=
  if isJobCallback response then .handleJobsResponse else .ignoredAPIResponse

/-- Specification-side reading of "substr occurs in s at index i": the
slice `s[i:i+len substr]` exists and equals `substr`. -/
def MatchAt (s substr : List Char) (i : Nat) : Prop :=
  i + substr.length ≤ s.length ∧ (s.drop i).take substr.length = substr

instance (s substr : List Char) (i : Nat) : Decidable (MatchAt s substr i) := by
  unfold MatchAt; infer_instance

/-- Specification-side reading of "s contains substr". -/
def HasSubstring (s substr : List Char) : Prop :=
  ∃ i, MatchAt s substr i

lemma sliceEq_iff_matchAt (s substr : List Char) (i : Nat) (hsub : substr ≠ []) :
    sliceEq s substr i = true ↔ MatchAt s substr i := by
  unfold sliceEq MatchAt
  rw [beq_iff_eq]
  constructor
  · intro h
    refine ⟨?_, h⟩
    have hlen := congrArg List.length h
    simp [List.length_take, List.length_drop] at hlen
    have hpos : 0 < substr.length := List.length_pos.mpr hsub
    omega
  · intro h
    exact h.2

lemma findLoop_spec (s substr : List Char) :
    ∀ fuel i,
      (∃ k : Nat, i ≤ k ∧ k < i + fuel ∧ sliceEq s substr k = true ∧
          (∀ j : Nat, i ≤ j → j < k → sliceEq s substr j = false) ∧
          findLoop s substr i fuel = (k : Int)) ∨
      ((∀ j : Nat, i ≤ j → j < i + fuel → sliceEq s substr j = false) ∧
          findLoop s substr i fuel = -1) := by
  intro fuel
  induction fuel with
  | zero =>
      intro i
      right
      exact ⟨fun j h1 h2 => by omega, rfl⟩
  | succ n ih =>
      intro i
      by_cases h : sliceEq s substr i = true
      · left
        exact ⟨i, le_refl i, by omega, h, fun j h1 h2 => by omega, by simp [findLoop, h]⟩
      · have hfalse : sliceEq s substr i = false := by
          cases hb : sliceEq s substr i with
          | false => rfl
          | true => exact absurd hb h
        rcases ih (i + 1) with ⟨k, hk1, hk2, hk3, hk4, hk5⟩ | ⟨hall, heq⟩
        · left
          refine ⟨k, by omega, by omega, hk3, ?_, ?_⟩
          · intro j h1 h2
            by_cases hj : j = i
            · subst hj; exact hfalse
            · exact hk4 j (by omega) h2
          · simpa [findLoop, hfalse] using hk5
        · right
          refine ⟨?_, by simpa [findLoop, hfalse] using heq⟩
          intro j h1 h2
          by_cases hj : j = i
          · subst hj; exact hfalse
          · exact hall j (by omega) (by omega)

/-- `findInString` returns the least matching index, or -1 when there is
none. -/
lemma findInString_classify (s substr : List Char) :
    (∃ k : Nat, findInString s substr = (k : Int) ∧ MatchAt s substr k ∧
        ∀ j : Nat, j < k → ¬ MatchAt s substr j) ∨
    (findInString s substr = -1 ∧ ∀ j : Nat, ¬ MatchAt s substr j) := by
  by_cases hempty : substr.length = 0
  · left
    have hnil : substr = [] := List.length_eq_zero.mp hempty
    refine ⟨0, by simp [findInString, hempty], ?_, ?_⟩
    · subst hnil; exact ⟨by simp, by simp⟩
    · intro j hj; omega
  · by_cases hshort : s.length < substr.length
    · right
      refine ⟨by simp [findInString, hempty, hshort], ?_⟩
      intro j hm
      have := hm.1
      omega
    · have hsub : substr ≠ [] := fun h => hempty (by simp [h])
      have hcall : findInString s substr =
          findLoop s substr 0 (s.length - substr.length + 1) := by
        simp [findInString, hempty, hshort]
      rcases findLoop_spec s substr (s.length - substr.length + 1) 0 with
        ⟨k, _, hk2, hk3, hk4, hk5⟩ | ⟨hall, heq⟩
      · left
        refine ⟨k, by rw [hcall]; exact hk5,
          (sliceEq_iff_matchAt s substr k hsub).mp hk3, ?_⟩
        intro j hj hm
        have hfalse := hk4 j (by omega) hj
        have htrue := (sliceEq_iff_matchAt s substr j hsub).mpr hm
        rw [hfalse] at htrue
        exact Bool.false_ne_true htrue
      · right
        refine ⟨by rw [hcall]; exact heq, ?_⟩
        intro j hm
        by_cases hj : j < s.length - substr.length + 1
        · have hfalse := hall j (by omega) (by omega)
          have htrue := (sliceEq_iff_matchAt s substr j hsub).mpr hm
          rw [hfalse] at htrue
          exact Bool.false_ne_true htrue
        · have := hm.1
          omega

/-- `contains` of the source agrees with the substring predicate. -/
lemma containsSubstring_iff (s substr : List Char) :
    containsSubstring s substr = true ↔ HasSubstring s substr := by
  unfold containsSubstring HasSubstring
  rcases findInString_classify s substr with ⟨k, hk1, hk2, _⟩ | ⟨h1, h2⟩
  · constructor
    · intro _; exact ⟨k, hk2⟩
    · intro _
      have hlen : substr.length ≤ s.length := by
        have := hk2.1; omega
      simp [hk1, hlen]
  · constructor
    · intro h
      rw [h1] at h
      simp at h
    · intro h
      rcases h with ⟨i, hi⟩
      exact absurd hi (h2 i)

/- ## Request-id generation (process_handler.go, parser handler) -/

/-- The fixed charset of `generateRandomString`
(process_handler.go line 444 and the parser handler's identical copy). -/
def requestIDCharset : List Char := "abcdefghijklmnopqrstuvwxyz0123456789".toList

/-- Embeds `ProcessHandler.generateRandomString` (process_handler.go lines
443-450): `result[i] = charset[i % len(charset)]`.  The index is always in
bounds, so `getD`'s default is never used. -/
def ProcessHandler.generateRandomString (length : Nat) : List Char :=
  (List.range length).map fun i => requestIDCharset.getD (i % requestIDCharset.length) 'a'

/-- Embeds `ParserHandler.generateRandomString` (parser handler lines
449-456), byte for byte the same loop as the process handler's. -/
def ParserHandler.generateRandomString (length : Nat) : List Char :=
  (List.range length).map fun i => requestIDCharset.getD (i % requestIDCharset.length) 'a'

/-- Embeds `ProcessHandler.getRequestID` (process_handler.go lines 436-441):
the `X-Request-ID` header when non-empty, else `"process_" + gen(8)`. -/
def ProcessHandler.getRequestID (xRequestIDHeader : List Char) : List Char :=
  if xRequestIDHeader ≠ [] then xRequestIDHeader
  else "process_".toList ++ ProcessHandler.generateRandomString 8

/-- Embeds `ParserHandler.getRequestID` (parser handler lines 442-447). -/
def ParserHandler.getRequestID (xRequestIDHeader : List Char) : List Char :=
  if xRequestIDHeader ≠ [] then xRequestIDHeader
  else "parser_".toList ++ ParserHandler.generateRandomString 8

lemma requestIDCharset_length : requestIDCharset.length = 36 := rfl

/- ## Claim theorems over the string functions -/

/-- C10: `findInString` returns the smallest index at which `substr`
occurs as a slice of `s` and -1 when no such index exists, with
`findInString s "" = 0`; and `contains` returns true exactly when such an
index exists. -/
theorem c10_findInString_smallest_index_and_contains (s substr : List Char) :
    ((∃ k : Nat, findInString s substr = (k : Int) ∧ MatchAt s substr k ∧
        ∀ j : Nat, j < k → ¬ MatchAt s substr j) ∨
      (findInString s substr = -1 ∧ ∀ j : Nat, ¬ MatchAt s substr j))
  ∧ findInString s [] = 0
  ∧ (containsSubstring s substr = true ↔ HasSubstring s substr) :=
  ⟨findInString_classify s substr, by simp [findInString],
    containsSubstring_iff s substr⟩

/-- C9: `Core.isJobCallback` returns true exactly when the response is
non-empty, does not contain `_response`, and contains `job_completed` or
`job_failed`; consequently a response containing `_response` anywhere is
routed as an API response, not forwarded to the process component. -/
theorem c9_isJobCallback_classification (response : List Char) :
    (isJobCallback response = true ↔
      response ≠ [] ∧ ¬ HasSubstring response "_response".toList ∧
        (HasSubstring response "job_completed".toList ∨
          HasSubstring response "job_failed".toList))
  ∧ (HasSubstring response "_response".toList →
      routeJobsResponse response = .ignoredAPIResponse) := by
  have h1 := containsSubstring_iff response "_response".toList
  have h2 := containsSubstring_iff response "job_completed".toList
  have h3 := containsSubstring_iff response "job_failed".toList
  constructor
  · unfold isJobCallback
    have h1' : containsSubstring response "_response".toList = false ↔
        ¬ HasSubstring response "_response".toList := by
      rw [← h1]; simp
    simp only [Bool.and_eq_true, Bool.or_eq_true, Bool.not_eq_true',
      decide_eq_true_eq]
    rw [h2, h3, h1', List.length_pos]
    tauto
  · intro h
    have hc : containsSubstring response "_response".toList = true := h1.mpr h
    have hfalse : isJobCallback response = false := by
      unfold isJobCallback
      rw [hc]
      simp
    unfold routeJobsResponse
    simp [hfalse]

/-- C8: both `generateRandomString` implementations are the same
deterministic function, character `i` of the output is
`charset[i % 36]`, and the request ids generated when the `X-Request-ID`
header is absent are the fixed strings `process_abcdefgh` and
`parser_abcdefgh` — not random. -/
theorem c8_generateRandomString_deterministic (n : Nat) :
    ProcessHandler.generateRandomString n = ParserHandler.generateRandomString n
  ∧ (∀ i : Nat, i < n →
      (ProcessHandler.generateRandomString n).getD i 'a' =
        requestIDCharset.getD (i % 36) 'a')
  ∧ ProcessHandler.getRequestID [] = "process_abcdefgh".toList
  ∧ ParserHandler.getRequestID [] = "parser_abcdefgh".toList := by
  refine ⟨rfl, ?_, by decide, by decide⟩
  intro i hi
  unfold ProcessHandler.generateRandomString
  rw [List.getD_eq_getElem?_getD, List.getElem?_map, List.getElem?_range hi,
    requestIDCharset_length]
  rfl

/- ## Go values, maps and the flow-id resolution (part of the process package) -/

/-- A Go `interface{}` value as the engine's untyped element maps carry
them: nil, string, bool, integer, list, or string-keyed map (embedded as
an association list; Go map keys are unique, lookup takes the first
binding). -/
inductive GoValue where
  | null : GoValue
  | str : String → GoValue
  | bool : Bool → GoValue
  | int : Int → GoValue
  | list : List GoValue → GoValue
  | map : List (String × GoValue) → GoValue

/-- Go map lookup `m[k]` on the association-list embedding. -/
def lookupAssoc {α : Type} (m : List (String × α)) (k : String) : Option α :=
  match m with
  | [] => none
  | (k', v) :: rest => if k' = k then some v else lookupAssoc rest k

/-- Go map assignment `m[k] = v` on the association-list embedding. -/
def setAssoc {α : Type} (m : List (String × α)) (k : String) (v : α) :
    List (String × α) :=
  match m with
  | [] => [(k, v)]
  | (k', v') :: rest =>
      if k' = k then (k, v) :: rest else (k', v') :: setAssoc rest k v

lemma lookupAssoc_setAssoc_self {α : Type} (m : List (String × α)) (k : String) (v : α) :
    lookupAssoc (setAssoc m k v) k = some v := by
  induction m with
  | nil => simp [setAssoc, lookupAssoc]
  | cons hd tl ih =>
      by_cases h : hd.1 = k
      · simp [setAssoc, lookupAssoc, h]
      · simp [setAssoc, lookupAssoc, h, ih]

/-- The per-element body of the loop in
`CallbackHelper.findTargetElementByFlowID` (callback helper lines 212-232):
the element is a map, its `incoming` attribute exists, and either it is a
list containing the flow id among its string items, or it is that very
string. -/
def incomingContainsFlow (element : GoValue) (flowID : String) : Bool :=
  match element with
  | .map elementMap =>
      match lookupAssoc elementMap "incoming" with
      | some (.list incomingList) =>
          incomingList.any fun item =>
            match item with
            | .str incomingFlow => incomingFlow == flowID
            | _ => false
      | some (.str incomingStr) => incomingStr == flowID
      | _ => false
  | _ => false

/-- Embeds `CallbackHelper.findTargetElementByFlowID` (callback helper
lines 211-234): the id of the first element whose `incoming` attribute
contains the flow id, or `""` when the loop finds none. -/
def findTargetElementByFlowID (flowID : String)
    (elements : List (String × GoValue)) : String :=
  match elements with
  | [] => ""
  | (elementID, element) :: rest =>
      if incomingContainsFlow element flowID then elementID
      else findTargetElementByFlowID flowID rest

/-- C6 counterexample: an element registered under the empty id whose
`incoming` list contains the flow id makes the resolver return `""`,
although an element of the process lists the flow among its incoming
flows — so `""` does not signal "no element lists f" for every process. -/
theorem c6_counterexample_empty_element_id :
    findTargetElementByFlowID "flow_1"
        [("", GoValue.map [("incoming", GoValue.list [GoValue.str "flow_1"])])] = ""
  ∧ incomingContainsFlow
        (GoValue.map [("incoming", GoValue.list [GoValue.str "flow_1"])]) "flow_1" = true := by
  exact ⟨rfl, rfl⟩

/-- C6 (amended): whenever the resolver returns a non-empty id it is the
id of an element whose `incoming` attribute (list or single string)
contains the flow id, and — provided every element id is non-empty — it
returns `""` exactly when no element of the process lists the flow id
among its incoming flows. -/
theorem c6_findTargetElementByFlowID_resolution (flowID : String)
    (elements : List (String × GoValue))
    (hids : ∀ p ∈ elements, p.1 ≠ "") :
    (findTargetElementByFlowID flowID elements = "" ↔
      ∀ p ∈ elements, incomingContainsFlow p.2 flowID = false)
  ∧ (findTargetElementByFlowID flowID elements ≠ "" →
      ∃ element, (findTargetElementByFlowID flowID elements, element) ∈ elements ∧
        incomingContainsFlow element flowID = true) := by
  induction elements with
  | nil => simp [findTargetElementByFlowID]
  | cons hd tl ih =>
      obtain ⟨hdid, hdel⟩ := hd
      have hid : hdid ≠ "" := hids (hdid, hdel) (List.mem_cons_self _ _)
      have htl := ih (fun p hp => hids p (List.mem_cons_of_mem _ hp))
      by_cases hc : incomingContainsFlow hdel flowID = true
      · constructor
        · constructor
          · intro h
            simp [findTargetElementByFlowID, hc] at h
            exact absurd h hid
          · intro h
            have hhd := h (hdid, hdel) (List.mem_cons_self _ _)
            exact absurd hc (by simp [hhd])
        · intro _
          refine ⟨hdel, ?_, hc⟩
          simp [findTargetElementByFlowID, hc]
      · have hc' : incomingContainsFlow hdel flowID = false := by
          cases hb : incomingContainsFlow hdel flowID
          · rfl
          · exact absurd hb hc
        have heq : findTargetElementByFlowID flowID ((hdid, hdel) :: tl) =
            findTargetElementByFlowID flowID tl := by
          simp [findTargetElementByFlowID, hc']
        constructor
        · rw [heq, htl.1]
          constructor
          · intro h p hp
            rcases List.mem_cons.mp hp with h1 | h2
            · rw [h1]; exact hc'
            · exact h p h2
          · intro h p hp
            exact h p (List.mem_cons_of_mem _ hp)
        · intro hne
          rw [heq] at hne ⊢
          obtain ⟨el, hmem, hflow⟩ := htl.2 hne
          exact ⟨el, List.mem_cons_of_mem _ hmem, hflow⟩

/-- C6 witness: the amended theorem applied to a one-element process whose
element `elem_1` has the flow among its incoming ids. -/
theorem c6_findTargetElementByFlowID_resolution_witness :
    findTargetElementByFlowID "flow_1"
        [("elem_1", GoValue.map [("incoming", GoValue.list [GoValue.str "flow_1"])])] = "" ↔
      ∀ p ∈ [("elem_1", GoValue.map [("incoming", GoValue.list [GoValue.str "flow_1"])])],
        incomingContainsFlow p.2 "flow_1" = false :=
  (c6_findTargetElementByFlowID_resolution "flow_1"
      [("elem_1", GoValue.map [("incoming", GoValue.list [GoValue.str "flow_1"])])]
      (by intro p hp; simp at hp; subst hp; decide)).1

/- ## Process instance status adapter (src/core/server/process_manager.go lines 53-77) -/

/-- Two-digit zero padding of a calendar field, as Go's stdlib time
formatting renders month, day, hour, minute and second. -/
def pad2 (n : Nat) : String :=
  if n < 10 then "0" ++ toString n else toString n

/-- The date-time part of Go's `time.Format("2006-01-02T15:04:05Z07:00")`
for a UTC instant given as Unix seconds: civil date by the standard
days-from-epoch conversion, then the zero-padded fields. -/
def formatDateTime (unixSeconds : Int) : String :=
  let day : Int := unixSeconds.fdiv 86400
  let secOfDay : Nat := (unixSeconds - day * 86400).toNat
  let z : Int := day + 719468
  let era : Int := z.fdiv 146097
  let doe : Nat := (z - era * 146097).toNat
  let yoe : Nat := (doe - doe / 1460 + doe / 36524 - doe / 146096) / 365
  let doy : Nat := doe - (365 * yoe + yoe / 4 - yoe / 100)
  let mp : Nat := (5 * doy + 2) / 153
  let d : Nat := doy - (153 * mp + 2) / 5 + 1
  let m : Nat := if mp < 10 then mp + 3 else mp - 9
  let year : Int := (yoe : Int) + era * 400 + (if m ≤ 2 then 1 else 0)
  toString year ++ "-" ++ pad2 m ++ "-" ++ pad2 d ++ "T" ++
    pad2 (secOfDay / 3600) ++ ":" ++ pad2 ((secOfDay % 3600) / 60) ++ ":" ++
    pad2 (secOfDay % 60)

/-- Models Go's `time.Format("2006-01-02T15:04:05Z07:00")` (the RFC3339
layout the adapter uses): the civil date-time of the instant followed by
the UTC offset marker. Never the empty string. -/
def formatRFC3339 (unixSeconds : Int) : String :=
  formatDateTime unixSeconds ++ "Z"

lemma formatRFC3339_ne_empty (t : Int) : formatRFC3339 t ≠ "" := by
  intro h
  have hlen := congrArg String.length h
  rw [formatRFC3339, String.length_append] at hlen
  have hZ : ("Z" : String).length = 1 := rfl
  rw [hZ] at hlen
  simp at hlen

/-- Modelled from the spec: the `process.ProcessInstance` record (its
`models` source is not among the reviewed files); the fields are the ones
the adapter in process_manager.go reads, with `time.Time` embedded as Unix
seconds (so the adapter's `.Unix()` is the identity) and `CompletedAt`'s
nil-able pointer as an `Option`. -/
structure ProcessInstance where
  InstanceID : String
  ProcessID : String
  ProcessName : String
  State : String
  CurrentActivity : String
  StartedAt : Int
  UpdatedAt : Int
  CompletedAt : Option Int
  Variables : List (String × GoValue)

/-- The gRPC-facing `ProcessInstanceStatus` struct as the adapter fills it
(process_manager.go lines 64-76). -/
structure ProcessInstanceStatus where
  InstanceID : String
  ProcessID : String
  ProcessName : String
  Status : String
  State : String
  CurrentActivity : String
  StartedAt : Int
  UpdatedAt : Int
  CompletedAt : String
  Variables : List (String × GoValue)
  CreatedAt : String

/-- Embeds `processComponentAdapter.GetProcessInstanceStatus`
(process_manager.go lines 53-77), with the process component's answer
passed in as an `Except`: on error the error is returned unchanged; on
success every status field is filled from the instance, `CompletedAt`
formatted only when non-nil, and `CreatedAt` reusing the formatted
`StartedAt`. -/
def getProcessInstanceStatusAdapter (compResult : Except String ProcessInstance) :
    Except String ProcessInstanceStatus :=
  match compResult with
  | .error err => .error err
  | .ok inst =>
      let completedAtStr : String :=
        match inst.CompletedAt with
        | some t => formatRFC3339 t
        | none => ""
      .ok { InstanceID := inst.InstanceID
            ProcessID := inst.ProcessID
            ProcessName := inst.ProcessName
            Status := inst.State
            State := inst.State
            CurrentActivity := inst.CurrentActivity
            StartedAt := inst.StartedAt
            UpdatedAt := inst.UpdatedAt
            CompletedAt := completedAtStr
            Variables := inst.Variables
            CreatedAt := formatRFC3339 inst.StartedAt }

/-- C7: on success the adapter copies the instance state into both `State`
and `Status`, formats `CompletedAt` exactly when it is non-nil (the empty
string otherwise), and sets `CreatedAt` to the formatted `StartedAt`; on
error it forwards the error and returns no status. -/
theorem c7_getProcessInstanceStatus_adapter (inst : ProcessInstance) (err : String) :
    (∃ st : ProcessInstanceStatus,
      getProcessInstanceStatusAdapter (.ok inst) = .ok st ∧
      st.State = inst.State ∧ st.Status = inst.State ∧
      st.CreatedAt = formatRFC3339 inst.StartedAt ∧
      st.CompletedAt = (match inst.CompletedAt with
        | some t => formatRFC3339 t
        | none => "") ∧
      (st.CompletedAt = "" ↔ inst.CompletedAt = none))
  ∧ getProcessInstanceStatusAdapter (.error err) = .error err := by
  constructor
  · refine ⟨_, rfl, rfl, rfl, rfl, rfl, ?_⟩
    cases hc : inst.CompletedAt with
    | none => simp [getProcessInstanceStatusAdapter, hc]
    | some t =>
        simp only [getProcessInstanceStatusAdapter, hc]
        constructor
        · intro h
          exact absurd h (formatRFC3339_ne_empty t)
        · intro h
          cases h
  · rfl

/- ## Tokens, storage and the callback helper (process package) -/

/-- Token lifecycle states (§3 of the data model). -/
inductive TokenState where
  | ACTIVE : TokenState
  | WAITING : TokenState
  | COMPLETED : TokenState
  | CANCELLED : TokenState
deriving DecidableEq

/-- Modelled from the spec: the `models.Token` record (its source is not
among the reviewed files); the fields are the ones the process package
reads and writes — id, owner instance, process key, position, state, the
`waitingFor` key, the variable overlay, the execution-context scratchpad
and the boundary-timer id set. -/
structure Token where
  TokenID : String
  ProcessInstanceID : String
  ProcessKey : String
  CurrentElementID : String
  State : TokenState
  WaitingFor : String
  Variables : List (String × GoValue)
  ExecutionContext : List (String × GoValue)
  BoundaryTimerIDs : List String

/-- Modelled from the spec: `Token.IsWaiting` of the `models` package —
whether the token's state is WAITING (§3 invariant I1 ties this to
`waitingFor` being set). -/
def Token.IsWaiting (t : Token) : Bool :=
  match t.State with
  | .WAITING => true
  | _ => false

/-- Modelled from the spec: `Token.ClearWaitingFor` of the `models`
package — the token stops waiting: state back to ACTIVE and the
`waitingFor` key emptied. -/
def Token.ClearWaitingFor (t : Token) : Token :=
  { t with State := TokenState.ACTIVE, WaitingFor := "" }

/-- Modelled from the spec: `Token.MergeVariables` of the `models`
package — callback variables are merged into the token's overlay,
overwriting existing keys. -/
def Token.MergeVariables (t : Token) (vars : List (String × GoValue)) : Token :=
  { t with Variables := vars.foldl (fun acc kv => setAssoc acc kv.1 kv.2) t.Variables }

/-- Modelled from the spec: `Token.GetExecutionContext` of the `models`
package — read a key of the execution-context scratchpad. -/
def Token.GetExecutionContext (t : Token) (key : String) : Option GoValue :=
  lookupAssoc t.ExecutionContext key

/-- Modelled from the spec: `Token.SetExecutionContext` of the `models`
package — write a key of the execution-context scratchpad. -/
def Token.SetExecutionContext (t : Token) (key : String) (value : GoValue) : Token :=
  { t with ExecutionContext := setAssoc t.ExecutionContext key value }

/-- The durable store's contents as the scheduler sees them: every record
kind the spec names (tokens, instances, timers, subscriptions, jobs),
keyed by id; timer, subscription and job records are opaque blobs here. -/
structure Store where
  tokens : List (String × Token)
  instances : List (String × ProcessInstance)
  timers : List (String × GoValue)
  subscriptions : List (String × GoValue)
  jobs : List (String × GoValue)

/-- Modelled from the spec: `storage.LoadToken` — look the token up by id;
an absent id is an error. Loading writes nothing. -/
def Storage.LoadToken (st : Store) (tokenID : String) : Except String Token :=
  match lookupAssoc st.tokens tokenID with
  | some t => .ok t
  | none => .error ("token not found: " ++ tokenID)

/-- Embeds `CallbackHelper.LoadAndValidateToken` (callback helper lines
39-64) with the store passed explicitly: load the token, fail if it could
not be loaded, fail if it is not WAITING for exactly the expected key,
else return it. The store comes back unchanged on every path — the
function only reads. -/
def LoadAndValidateToken (st : Store) (tokenID expectedWaitingFor : String) :
    Except String Token × Store :=
  match Storage.LoadToken st tokenID with
  | .error e => (.error ("failed to load token " ++ tokenID ++ ": " ++ e), st)
  | .ok token =>
      if !token.IsWaiting || token.WaitingFor != expectedWaitingFor then
        (.error ("token " ++ tokenID ++ " is not waiting for " ++ expectedWaitingFor), st)
      else
        (.ok token, st)

/-- C1: a callback whose token is stored but not WAITING with exactly the
expected `waitingFor` key makes `LoadAndValidateToken` return an error and
no token, and leaves every stored record — tokens, instances, timers,
subscriptions, jobs — untouched: the store after the call is the store
before it. -/
theorem c1_stale_callback_is_dropped_state_unchanged (st : Store)
    (tokenID expectedWaitingFor : String) (token : Token)
    (hstored : lookupAssoc st.tokens tokenID = some token)
    (hstale : token.State ≠ TokenState.WAITING ∨ token.WaitingFor ≠ expectedWaitingFor) :
    (LoadAndValidateToken st tokenID expectedWaitingFor).1 =
      .error ("token " ++ tokenID ++ " is not waiting for " ++ expectedWaitingFor)
  ∧ (LoadAndValidateToken st tokenID expectedWaitingFor).2 = st := by
  have hload : Storage.LoadToken st tokenID = .ok token := by
    unfold Storage.LoadToken
    rw [hstored]
  have hcond : (!token.IsWaiting || token.WaitingFor != expectedWaitingFor) = true := by
    rcases hstale with h | h
    · have : token.IsWaiting = false := by
        unfold Token.IsWaiting
        cases hs : token.State with
        | WAITING => exact absurd hs h
        | ACTIVE => rfl
        | COMPLETED => rfl
        | CANCELLED => rfl
      rw [this]
      rfl
    · have : (token.WaitingFor != expectedWaitingFor) = true := by
        simp [bne_iff_ne, h]
      rw [this]
      simp
  unfold LoadAndValidateToken
  rw [hload]
  simp only [hcond]
  exact ⟨rfl, rfl⟩

/-- C1 witness: a COMPLETED token whose callback expects `timer:t-9` is
dropped and the one-token store is unchanged. -/
theorem c1_stale_callback_is_dropped_state_unchanged_witness :
    (LoadAndValidateToken
        (Store.mk [("tok-1", Token.mk "tok-1" "inst-1" "proc-1" "task-1"
          TokenState.COMPLETED "" [] [] [])] [] [] [] [])
        "tok-1" "timer:t-9").1 =
      .error ("token " ++ "tok-1" ++ " is not waiting for " ++ "timer:t-9") ∧
    (LoadAndValidateToken
        (Store.mk [("tok-1", Token.mk "tok-1" "inst-1" "proc-1" "task-1"
          TokenState.COMPLETED "" [] [] [])] [] [] [] [])
        "tok-1" "timer:t-9").2 =
      Store.mk [("tok-1", Token.mk "tok-1" "inst-1" "proc-1" "task-1"
          TokenState.COMPLETED "" [] [] [])] [] [] [] [] :=
  c1_stale_callback_is_dropped_state_unchanged
    (Store.mk [("tok-1", Token.mk "tok-1" "inst-1" "proc-1" "task-1"
      TokenState.COMPLETED "" [] [] [])] [] [] [] [])
    "tok-1" "timer:t-9"
    (Token.mk "tok-1" "inst-1" "proc-1" "task-1" TokenState.COMPLETED "" [] [] [])
    rfl (Or.inl (by decide))

/- ## ProcessCallbackAndContinue (callback helper lines 68-139) -/

/-- The externally visible operations `ProcessCallbackAndContinue` issues,
in order: the boundary-timer cancellation for the token, the persisting
token update, and the movement of the token to the next elements. -/
inductive SchedulerEffect where
  | cancelBoundaryTimers (tokenID : String) : SchedulerEffect
  | updateToken (token : Token) : SchedulerEffect
  | moveTokenToNextElements (tokenID : String) (elementID : String) : SchedulerEffect

/-- Embeds `CallbackHelper.ProcessCallbackAndContinue` (callback helper
lines 68-139).  The three collaborator calls whose Go implementations are
not among the reviewed files — `CancelBoundaryTimersForToken`,
`storage.UpdateToken`, `MoveTokenToNextElements` — are passed in as their
outcomes, and every call made is recorded in an effect trace in program
order.  Faithful to the source: the waiting state is cleared and callback
variables merged first; the cancellation error is only logged (the result
does not depend on `cancelResult`); the token update and the movement
propagate their errors. -/
def ProcessCallbackAndContinue
    (cancelResult : Except String Unit)
    (updateResult : Except String Unit)
    (moveResult : Except String Unit)
    (token : Token) (elementID : String)
    (callbackVars : Option (List (String × GoValue))) :
    Except String Unit × List SchedulerEffect :=
  let token := token.ClearWaitingFor
  let token := match callbackVars with
    | some vars => token.MergeVariables vars
    | none => token
  let effects := [SchedulerEffect.cancelBoundaryTimers token.TokenID]
  match updateResult with
  | .error e =>
      (.error ("failed to update token: " ++ e),
        effects ++ [SchedulerEffect.updateToken token])
  | .ok _ =>
      let effects := effects ++ [SchedulerEffect.updateToken token]
      let currentElementID :=
        if token.CurrentElementID = "" then elementID else token.CurrentElementID
      match moveResult with
      | .error e =>
          (.error ("failed to move token to next elements: " ++ e),
            effects ++ [SchedulerEffect.moveTokenToNextElements token.TokenID currentElementID])
      | .ok _ =>
          (.ok (),
            effects ++ [SchedulerEffect.moveTokenToNextElements token.TokenID currentElementID])

/-- The token as `ProcessCallbackAndContinue` persists it: waiting state
cleared, callback variables (when present) merged in. -/
def resumedToken (token : Token) (callbackVars : Option (List (String × GoValue))) : Token :=
  match callbackVars with
  | some vars => (token.ClearWaitingFor).MergeVariables vars
  | none => token.ClearWaitingFor

/-- C2: for every resumed token, `ProcessCallbackAndContinue` attempts the
boundary-timer cancellation first — before the token update is persisted
and before the token is moved — and, whatever the cancellation's outcome
(the result is the same for every `cancelResult`), the callback succeeds
and the token is still moved to the next elements. -/
theorem c2_boundary_timers_cancelled_before_move_and_nonfatal
    (cancelResult : Except String Unit) (token : Token) (elementID : String)
    (callbackVars : Option (List (String × GoValue))) :
    (ProcessCallbackAndContinue cancelResult (.ok ()) (.ok ())
        token elementID callbackVars).1 = .ok ()
  ∧ ∃ usedElementID,
      (ProcessCallbackAndContinue cancelResult (.ok ()) (.ok ())
          token elementID callbackVars).2 =
        [SchedulerEffect.cancelBoundaryTimers token.TokenID,
         SchedulerEffect.updateToken (resumedToken token callbackVars),
         SchedulerEffect.moveTokenToNextElements token.TokenID usedElementID] := by
  unfold ProcessCallbackAndContinue resumedToken
  cases callbackVars with
  | none =>
      exact ⟨rfl, if token.CurrentElementID = "" then elementID
        else token.CurrentElementID, rfl⟩
  | some vars =>
      exact ⟨rfl, if ((token.ClearWaitingFor).MergeVariables vars).CurrentElementID = ""
        then elementID
        else ((token.ClearWaitingFor).MergeVariables vars).CurrentElementID, rfl⟩

/- ## Call activity executor (part_003 lines 260-450) -/

/-- The `ExecutionResult` struct the element executors return (the
`ElementExecutor` contract of the process package). -/
structure ExecutionResult where
  Success : Bool := false
  TokenUpdated : Bool := false
  NextElements : List String := []
  WaitingFor : String := ""
  Completed : Bool := false
  Error : String := ""

/-- Embeds the Go interface comparison `executed == true` from
`CallActivityExecutor.Execute` (line 273): a Go `interface{}` equals the
untyped constant `true` exactly when it is that bool. -/
def isGoTrue (v : GoValue) : Bool :=
  match v with
  | .bool true => true
  | _ => false

/-- The re-entry check of `CallActivityExecutor.Execute` (lines 272-273):
the execution context holds `call_activity_executed:<currentElementId>`
with value `true`. -/
def callActivityExecutedFlag (token : Token) : Bool :=
  match token.GetExecutionContext ("call_activity_executed:" ++ token.CurrentElementID) with
  | some executed => isGoTrue executed
  | none => false

/-- The inner loop body of `extractCalledProcessID` (lines 403-440): an
extension entry yields a process id when it is a map of type
`calledElement` whose `called_element` map holds a string `process_id`;
any failed check moves on to the next entry. -/
def extractFromExtension (ext : GoValue) : Option String :=
  match ext with
  | .map extMap =>
      match lookupAssoc extMap "type" with
      | some (.str "calledElement") =>
          match lookupAssoc extMap "called_element" with
          | some (.map calledElementMap) =>
              match lookupAssoc calledElementMap "process_id" with
              | some (.str processID) => some processID
              | _ => none
          | _ => none
      | _ => none
  | _ => none

/-- The outer loop body of `extractCalledProcessID` (lines 381-441): an
`extension_elements` entry is searched when it is a map of type
`extensionElements` with a list under `extensions`; the first extension
yielding a process id wins, and a fruitless entry moves on to the next. -/
def extractFromExtensionElement (extElem : GoValue) : Option String :=
  match extElem with
  | .map extElemMap =>
      match lookupAssoc extElemMap "type" with
      | some (.str "extensionElements") =>
          match lookupAssoc extElemMap "extensions" with
          | some (.list extensionsList) => extensionsList.findSome? extractFromExtension
          | _ => none
      | _ => none
  | _ => none

/-- Embeds `CallActivityExecutor.extractCalledProcessID` (part_003 lines
369-444): error when `extension_elements` is absent or not a list, the
first process id found in the nested walk otherwise, error when the walk
finds none. -/
def extractCalledProcessID (element : List (String × GoValue)) : Except String String :=
  match lookupAssoc element "extension_elements" with
  | none => .error "no extension_elements found"
  | some extensionElements =>
      match extensionElements with
      | .list extensionElementsList =>
          match extensionElementsList.findSome? extractFromExtensionElement with
          | some processID => .ok processID
          | none => .error "called process ID not found in extension elements"
      | _ => .error "extension_elements is not a list"

/-- Embeds `CallActivityExecutor.Execute` (part_003 lines 260-357).  The
child-instance start (a component call whose implementation is elsewhere)
is passed in as its outcome — the started child's instance id or an
error — and the calls made to it are returned as the third component:
the list of `(calledProcessID, variables)` starts issued.  On re-entry
(the context flag is set) the executor only collects the outgoing flow
ids; on first entry it extracts the called process id, starts the child,
marks the context flag and suspends on `call_activity:<childInstanceID>`. -/
def CallActivityExecute (startResult : Except String String)
    (token : Token) (element : List (String × GoValue)) :
    ExecutionResult × Token × List (String × List (String × GoValue)) :=
  let callActivityKey := "call_activity_executed:" ++ token.CurrentElementID
  if callActivityExecutedFlag token then
    match lookupAssoc element "outgoing" with
    | none =>
        ({ Success := true, TokenUpdated := true, NextElements := [], Completed := true },
          token, [])
    | some outgoing =>
        let nextElements :=
          match outgoing with
          | .list outgoingList =>
              outgoingList.filterMap fun item =>
                match item with
                | .str flowID => some flowID
                | _ => none
          | .str outgoingStr => [outgoingStr]
          | _ => []
        ({ Success := true, TokenUpdated := false, NextElements := nextElements,
            Completed := false }, token, [])
  else
    match extractCalledProcessID element with
    | .error e =>
        ({ Success := false, Error := "failed to extract called process ID: " ++ e },
          token, [])
    | .ok calledProcessID =>
        match startResult with
        | .error e =>
            ({ Success := false, Error := "failed to start child process: " ++ e },
              token, [(calledProcessID, token.Variables)])
        | .ok childInstanceID =>
            let updatedToken := token.SetExecutionContext callActivityKey (GoValue.bool true)
            ({ Success := true, TokenUpdated := true,
                WaitingFor := "call_activity:" ++ childInstanceID, Completed := false },
              updatedToken, [(calledProcessID, token.Variables)])

/-- The outgoing-flow extraction of the resume branch of
`CallActivityExecutor.Execute` (lines 280-299): the string items of an
`outgoing` list, a single `outgoing` string, or nothing. -/
def outgoingFlowIDs (element : List (String × GoValue)) : List String :=
  match lookupAssoc element "outgoing" with
  | some (.list outgoingList) =>
      outgoingList.filterMap fun item =>
        match item with
        | .str flowID => some flowID
        | _ => none
  | some (.str outgoingStr) => [outgoingStr]
  | _ => []

/-- C3: on first entry (no `call_activity_executed:<id>=true` in the
execution context), the call-activity executor starts exactly one child
instance of the extracted process id with the token's current variables,
marks the context flag, and suspends on `call_activity:<childInstanceID>`;
when no called process id can be extracted it returns a non-successful
result and starts no child instance. -/
theorem c3_call_activity_first_entry (startResult : Except String String)
    (token : Token) (element : List (String × GoValue))
    (hflag : callActivityExecutedFlag token = false) :
    (∀ pid cid, extractCalledProcessID element = .ok pid → startResult = .ok cid →
      (CallActivityExecute startResult token element).2.2 = [(pid, token.Variables)] ∧
      (CallActivityExecute startResult token element).1.Success = true ∧
      (CallActivityExecute startResult token element).1.WaitingFor = "call_activity:" ++ cid ∧
      ((CallActivityExecute startResult token element).2.1).GetExecutionContext
          ("call_activity_executed:" ++ token.CurrentElementID) = some (GoValue.bool true))
  ∧ (∀ e, extractCalledProcessID element = .error e →
      (CallActivityExecute startResult token element).1.Success = false ∧
      (CallActivityExecute startResult token element).2.2 = []) := by
  constructor
  · intro pid cid hpid hcid
    unfold CallActivityExecute
    rw [hflag, hpid, hcid]
    refine ⟨rfl, rfl, rfl, ?_⟩
    simp only [Token.GetExecutionContext, Token.SetExecutionContext]
    exact lookupAssoc_setAssoc_self _ _ _
  · intro e herr
    unfold CallActivityExecute
    rw [hflag, herr]
    exact ⟨rfl, rfl⟩

/-- A call-activity element with one outgoing flow and a
`calledElement` extension naming the child process. -/
def callActivityElementExample : List (String × GoValue) :=
  [("type", GoValue.str "callActivity"),
   ("outgoing", GoValue.list [GoValue.str "flow_2"]),
   ("extension_elements", GoValue.list
     [GoValue.map
       [("type", GoValue.str "extensionElements"),
        ("extensions", GoValue.list
          [GoValue.map
            [("type", GoValue.str "calledElement"),
             ("called_element", GoValue.map [("process_id", GoValue.str "child-proc")])]])]])]

/-- A token entering the call activity for the first time. -/
def freshCallActivityToken : Token :=
  Token.mk "tok-2" "inst-1" "proc-1" "call_act_1" TokenState.ACTIVE ""
    [("x", GoValue.int 1)] [] []

/-- C3 witness: the first-entry theorem applied to a concrete token and
element, the start succeeding with child id `child-inst-7`. -/
theorem c3_call_activity_first_entry_witness :
    (CallActivityExecute (.ok "child-inst-7") freshCallActivityToken
        callActivityElementExample).2.2 =
      [("child-proc", freshCallActivityToken.Variables)] ∧
    (CallActivityExecute (.ok "child-inst-7") freshCallActivityToken
        callActivityElementExample).1.Success = true ∧
    (CallActivityExecute (.ok "child-inst-7") freshCallActivityToken
        callActivityElementExample).1.WaitingFor = "call_activity:" ++ "child-inst-7" ∧
    ((CallActivityExecute (.ok "child-inst-7") freshCallActivityToken
        callActivityElementExample).2.1).GetExecutionContext
      ("call_activity_executed:" ++ freshCallActivityToken.CurrentElementID) =
        some (GoValue.bool true) :=
  (c3_call_activity_first_entry (.ok "child-inst-7") freshCallActivityToken
      callActivityElementExample rfl).1 "child-proc" "child-inst-7" rfl rfl

/-- A token resuming the call activity: the context flag for
`call_act_1` is already `true`, and the token carries no variables. -/
def resumeCallActivityToken : Token :=
  Token.mk "tok-3" "inst-1" "proc-1" "call_act_1" TokenState.ACTIVE "" []
    [("call_activity_executed:call_act_1", GoValue.bool true)] []

/-- C4 counterexample: on resume, `Execute` returns the input token
unchanged — in particular with its empty variable overlay — while
advancing along `flow_2`; the executor has no access to the child
instance's variables and merges nothing into the token. -/
theorem c4_counterexample_execute_merges_nothing :
    (CallActivityExecute (.ok "child-inst-7") resumeCallActivityToken
        callActivityElementExample).1.NextElements = ["flow_2"]
  ∧ (CallActivityExecute (.ok "child-inst-7") resumeCallActivityToken
        callActivityElementExample).2.1 = resumeCallActivityToken
  ∧ (CallActivityExecute (.ok "child-inst-7") resumeCallActivityToken
        callActivityElementExample).2.1.Variables = [] :=
  ⟨rfl, rfl, rfl⟩

/-- C4 (amended): on resume (the context flag already `true`) the
executor advances along the element's outgoing flows, starts no child and
leaves the token untouched; the child instance's variables are merged into
the token not by `Execute` but by the callback processing
(`ProcessCallbackAndContinue` merges the callback's variables into the
persisted token) before execution continues. -/
theorem c4_call_activity_resume (startResult : Except String String)
    (token : Token) (element : List (String × GoValue))
    (hflag : callActivityExecutedFlag token = true) :
    (CallActivityExecute startResult token element).2.1 = token
  ∧ (CallActivityExecute startResult token element).2.2 = []
  ∧ (CallActivityExecute startResult token element).1.Success = true
  ∧ (CallActivityExecute startResult token element).1.NextElements = outgoingFlowIDs element
  ∧ ∀ vars, ((ProcessCallbackAndContinue (.ok ()) (.ok ()) (.ok ()) token
        token.CurrentElementID (some vars)).2).get? 1 =
      some (SchedulerEffect.updateToken ((token.ClearWaitingFor).MergeVariables vars)) := by
  have h5 : ∀ vars, ((ProcessCallbackAndContinue (.ok ()) (.ok ()) (.ok ()) token
        token.CurrentElementID (some vars)).2).get? 1 =
      some (SchedulerEffect.updateToken ((token.ClearWaitingFor).MergeVariables vars)) :=
    fun vars => rfl
  unfold CallActivityExecute
  rw [hflag]
  cases h : lookupAssoc element "outgoing" with
  | none => exact ⟨rfl, rfl, rfl, by unfold outgoingFlowIDs; rw [h]; rfl, h5⟩
  | some v =>
      cases v with
      | null => exact ⟨rfl, rfl, rfl, by unfold outgoingFlowIDs; rw [h]; rfl, h5⟩
      | str s => exact ⟨rfl, rfl, rfl, by unfold outgoingFlowIDs; rw [h]; rfl, h5⟩
      | bool b => exact ⟨rfl, rfl, rfl, by unfold outgoingFlowIDs; rw [h]; rfl, h5⟩
      | int n => exact ⟨rfl, rfl, rfl, by unfold outgoingFlowIDs; rw [h]; rfl, h5⟩
      | list l => exact ⟨rfl, rfl, rfl, by unfold outgoingFlowIDs; rw [h]; rfl, h5⟩
      | map m => exact ⟨rfl, rfl, rfl, by unfold outgoingFlowIDs; rw [h]; rfl, h5⟩

/-- C4 witness: the amended theorem applied to the concrete resume token
and element. -/
theorem c4_call_activity_resume_witness :
    (CallActivityExecute (.ok "child-inst-7") resumeCallActivityToken
        callActivityElementExample).2.1 = resumeCallActivityToken
  ∧ (CallActivityExecute (.ok "child-inst-7") resumeCallActivityToken
        callActivityElementExample).2.2 = []
  ∧ (CallActivityExecute (.ok "child-inst-7") resumeCallActivityToken
        callActivityElementExample).1.Success = true
  ∧ (CallActivityExecute (.ok "child-inst-7") resumeCallActivityToken
        callActivityElementExample).1.NextElements =
      outgoingFlowIDs callActivityElementExample
  ∧ ∀ vars, ((ProcessCallbackAndContinue (.ok ()) (.ok ()) (.ok ())
        resumeCallActivityToken resumeCallActivityToken.CurrentElementID
        (some vars)).2).get? 1 =
      some (SchedulerEffect.updateToken
        ((resumeCallActivityToken.ClearWaitingFor).MergeVariables vars)) :=
  c4_call_activity_resume (.ok "child-inst-7") resumeCallActivityToken
    callActivityElementExample rfl

/- ## Parallel-join firing (Token Scheduler §4.1, modelled from the spec) -/

/-- Modelled from the spec: a token parked at a parallel join — a sibling
of the firing instance whose `currentElementId` equals the join element
and that is waiting there (§4.1: "counts distinct parked sibling tokens at
the same join element of the same instance"). -/
def isParkedAtJoin (joinElementID instanceID : String) (t : Token) : Bool :=
  t.ProcessInstanceID == instanceID && t.CurrentElementID == joinElementID &&
    t.State == TokenState.WAITING

/-- Modelled from the spec: the parallel (AND) join firing step of the
Token Scheduler (§4.1); the scheduler's own source is not among the
reviewed files.  When the parked sibling tokens of the instance at the
join number exactly the join's incoming flows, the join fires: the first
parked token survives — its overlay extended with its siblings' overlays —
and advances to the join's outgoing target as an ACTIVE token, while every
other parked token transitions to CANCELLED.  Otherwise nothing fires. -/
def parallelJoinFire (incomingFlowCount : Nat)
    (joinElementID instanceID outgoingElementID : String)
    (tokens : List Token) : Option (Token × List Token) :=
  let parked := tokens.filter fun t => isParkedAtJoin joinElementID instanceID t
  if parked.length = incomingFlowCount then
    match parked with
    | [] => none
    | survivor :: siblings =>
        some
          ({ siblings.foldl (fun acc s => acc.MergeVariables s.Variables) survivor with
              State := TokenState.ACTIVE, WaitingFor := "",
              CurrentElementID := outgoingElementID },
            siblings.map fun s => { s with State := TokenState.CANCELLED })
  else none

/-- C5: whenever the parallel join fires at a join with K incoming flows,
the parked sibling tokens of the instance at the join number exactly K and
all K are consumed — the survivor plus the cancelled siblings account for
all of them, every non-survivor transitions to CANCELLED — and exactly one
surviving token advances (ACTIVE, positioned past the join). -/
theorem c5_parallel_join_consumes_exactly_K
    (K : Nat) (joinElementID instanceID outgoingElementID : String)
    (tokens : List Token) (survivor : Token) (cancelled : List Token)
    (hfire : parallelJoinFire K joinElementID instanceID outgoingElementID tokens =
      some (survivor, cancelled)) :
    (tokens.filter fun t => isParkedAtJoin joinElementID instanceID t).length = K
  ∧ 1 + cancelled.length = K
  ∧ (∀ t ∈ cancelled, t.State = TokenState.CANCELLED)
  ∧ survivor.State = TokenState.ACTIVE
  ∧ survivor.CurrentElementID = outgoingElementID := by
  unfold parallelJoinFire at hfire
  by_cases hlen :
      (tokens.filter fun t => isParkedAtJoin joinElementID instanceID t).length = K
  · rw [if_pos hlen] at hfire
    cases hpk : tokens.filter fun t => isParkedAtJoin joinElementID instanceID t with
    | nil => rw [hpk] at hfire; cases hfire
    | cons sv sib =>
        rw [hpk] at hfire
        rw [Option.some.injEq, Prod.mk.injEq] at hfire
        obtain ⟨hsv, hcb⟩ := hfire
        have hK : (sv :: sib).length = K := by rw [← hpk]; exact hlen
        refine ⟨hK, ?_, ?_, ?_, ?_⟩
        · rw [← hcb]
          simp at hK ⊢
          omega
        · intro t ht
          rw [← hcb] at ht
          obtain ⟨s, _, hs⟩ := List.mem_map.mp ht
          rw [← hs]
        · rw [← hsv]
        · rw [← hsv]
  · rw [if_neg hlen] at hfire
    cases hfire

/-- Two tokens parked at the join `join_1` of instance `inst_1`. -/
def parkedJoinTokenA : Token :=
  Token.mk "tok-a" "inst_1" "proc-1" "join_1" TokenState.WAITING ""
    [("a", GoValue.int 1)] [] []

/-- The second parked token. -/
def parkedJoinTokenB : Token :=
  Token.mk "tok-b" "inst_1" "proc-1" "join_1" TokenState.WAITING ""
    [("b", GoValue.int 2)] [] []

/-- C5 witness: the join theorem applied to a concrete two-flow join whose
two parked siblings fire. -/
theorem c5_parallel_join_consumes_exactly_K_witness :
    ([parkedJoinTokenA, parkedJoinTokenB].filter fun t =>
        isParkedAtJoin "join_1" "inst_1" t).length = 2
  ∧ 1 + [{ parkedJoinTokenB with State := TokenState.CANCELLED }].length = 2
  ∧ (∀ t ∈ [{ parkedJoinTokenB with State := TokenState.CANCELLED }],
      t.State = TokenState.CANCELLED)
  ∧ ({ parkedJoinTokenA.MergeVariables parkedJoinTokenB.Variables with
        State := TokenState.ACTIVE, WaitingFor := "",
        CurrentElementID := "after_join" } : Token).State = TokenState.ACTIVE
  ∧ ({ parkedJoinTokenA.MergeVariables parkedJoinTokenB.Variables with
        State := TokenState.ACTIVE, WaitingFor := "",
        CurrentElementID := "after_join" } : Token).CurrentElementID = "after_join" :=
  c5_parallel_join_consumes_exactly_K 2 "join_1" "inst_1" "after_join"
    [parkedJoinTokenA, parkedJoinTokenB]
    ({ parkedJoinTokenA.MergeVariables parkedJoinTokenB.Variables with
        State := TokenState.ACTIVE, WaitingFor := "",
        CurrentElementID := "after_join" })
    [{ parkedJoinTokenB with State := TokenState.CANCELLED }]
    rfl
